import Mathlib

/-!
Shallow embedding of the r2-upload signing core
(`src/r2-upload/scripts/upload.py`) in Lean 4.

Python strings are modelled as Lean `String` (lists of unicode code
points); byte strings as `List Nat` with every element `< 256`.
`hashlib.sha256`, `hmac` and the UTF-8 codec are given executable
models below.  Fallible Python functions (those that raise
`R2UploadError`) are modelled with `Except R2UploadError`.
-/

namespace R2Upload

/-- The single error class raised by the module (`class R2UploadError`). -/
structure R2UploadError where
  msg : String
deriving DecidableEq, Repr

/-- Whether an `Except` result is a success (no exception raised). -/
def isOkE {ε α : Type} : Except ε α → Bool
  | .ok _ => true
  | .error _ => false

/-! ### Python string primitives (modelled on `List Char`) -/

/-- Python ASCII whitespace, as used by `str.strip()` / `str.split()`
(the unicode cases are irrelevant to this module's inputs). -/
def isPySpace (c : Char) : Bool :=
  c = ' ' || c = '\t' || c = '\n' || c = '\x0d' || c = '\x0b' || c = '\x0c'

/-- `str.strip()` on a char list. -/
def pyStrip (l : List Char) : List Char :=
  ((l.dropWhile isPySpace).reverse.dropWhile isPySpace).reverse

/-- `str.rstrip(c)` for a single strip character. -/
def pyRstrip (c : Char) (l : List Char) : List Char :=
  (l.reverse.dropWhile (fun d => d = c)).reverse

/-- `str.lstrip(c)` for a single strip character. -/
def pyLstrip (c : Char) (l : List Char) : List Char :=
  l.dropWhile (fun d => d = c)

/-- `str.startswith(pre)`. -/
def pyStartsWith (pre l : List Char) : Bool :=
  decide (l.take pre.length = pre)

/-- `sep.join(parts)` for a list of strings. -/
def joinSep (sep : String) : List String → String
  | [] => ""
  | [x] => x
  | x :: y :: xs => x ++ sep ++ joinSep sep (y :: xs)

/-- `"".join(parts)`. -/
def joinAll (parts : List String) : String :=
  parts.foldr (fun a b => a ++ b) ""

theorem length_dropWhile_le' (p : Char → Bool) (l : List Char) :
    (l.dropWhile p).length ≤ l.length := by
  induction l with
  | nil => simp [List.dropWhile]
  | cons c cs ih =>
    by_cases h : p c = true
    · simp only [List.dropWhile, h]
      exact Nat.le_succ_of_le ih
    · simp [List.dropWhile, h]

/-- The whitespace-separated words of a char list (`str.split()` with no
arguments: runs of whitespace separate, no empty words). -/
def pyWords : List Char → List (List Char)
  | [] => []
  | c :: cs =>
    if isPySpace c then pyWords cs
    else (c :: cs.takeWhile (fun d => !isPySpace d)) ::
      pyWords (cs.dropWhile (fun d => !isPySpace d))
termination_by l => l.length
decreasing_by
  · simp only [List.length_cons]
    omega
  · simp only [List.length_cons]
    exact Nat.lt_succ_of_le (length_dropWhile_le' _ cs)

/-! ### Lexicographic (code-point) string comparison, as Python compares `str` -/

/-- Strict lexicographic order on char lists by code point. -/
def charListLt : List Char → List Char → Bool
  | [], [] => false
  | [], _ :: _ => true
  | _ :: _, [] => false
  | a :: as, b :: bs =>
    if a.toNat < b.toNat then true
    else if b.toNat < a.toNat then false
    else charListLt as bs

/-- Non-strict lexicographic order on char lists by code point. -/
def charListLe : List Char → List Char → Bool
  | [], _ => true
  | _ :: _, [] => false
  | a :: as, b :: bs =>
    if a.toNat < b.toNat then true
    else if b.toNat < a.toNat then false
    else charListLe as bs

/-- Python `s1 <= s2` on strings. -/
def strLeB (a b : String) : Bool := charListLe a.data b.data

/-- Python `s1 < s2` on strings. -/
def strLtB (a b : String) : Bool := charListLt a.data b.data

theorem charListLe_total (a b : List Char) :
    charListLe a b = true ∨ charListLe b a = true := by
  induction a generalizing b with
  | nil => left; rfl
  | cons x xs ih =>
    cases b with
    | nil => right; rfl
    | cons y ys =>
      by_cases h1 : x.toNat < y.toNat
      · left; simp [charListLe, h1]
      · by_cases h2 : y.toNat < x.toNat
        · right; simp [charListLe, h1, h2]
        · have hx : ¬ y.toNat < x.toNat := h2
          rcases ih ys with h | h
          · left; simp [charListLe, h1, h2, h]
          · right; simp [charListLe, h1, hx, h]

theorem charListLe_trans {a b c : List Char}
    (hab : charListLe a b = true) (hbc : charListLe b c = true) :
    charListLe a c = true := by
  induction a generalizing b c with
  | nil => rfl
  | cons x xs ih =>
    cases b with
    | nil => simp [charListLe] at hab
    | cons y ys =>
      cases c with
      | nil => simp [charListLe] at hbc
      | cons z zs =>
        simp only [charListLe] at hab hbc ⊢
        by_cases hxy : x.toNat < y.toNat
        · by_cases hyz : y.toNat < z.toNat
          · simp [show x.toNat < z.toNat by omega]
          · by_cases hzy : z.toNat < y.toNat
            · simp [hyz, hzy] at hbc
            · have : y.toNat = z.toNat := by omega
              simp [show x.toNat < z.toNat by omega]
        · by_cases hyx : y.toNat < x.toNat
          · simp [hxy, hyx] at hab
          · have hec : x.toNat = y.toNat := by omega
            by_cases hyz : y.toNat < z.toNat
            · simp [show x.toNat < z.toNat by omega]
            · by_cases hzy : z.toNat < y.toNat
              · simp [hyz, hzy] at hbc
              · simp only [hxy, if_false, hyx] at hab
                simp only [hyz, if_false, hzy] at hbc
                simp only [show ¬ x.toNat < z.toNat by omega, if_false,
                  show ¬ z.toNat < x.toNat by omega]
                exact ih hab hbc

theorem charListLt_asymm {a b : List Char}
    (hab : charListLt a b = true) (hba : charListLt b a = true) : False := by
  induction a generalizing b with
  | nil =>
    cases b with
    | nil => simp [charListLt] at hab
    | cons y ys => simp [charListLt] at hba
  | cons x xs ih =>
    cases b with
    | nil => simp [charListLt] at hab
    | cons y ys =>
      simp only [charListLt] at hab hba
      by_cases hxy : x.toNat < y.toNat
      · rw [if_neg (by omega : ¬ y.toNat < x.toNat), if_pos hxy] at hba
        exact Bool.false_ne_true hba
      · by_cases hyx : y.toNat < x.toNat
        · simp [hxy, hyx] at hab
        · simp only [hxy, if_false, hyx] at hab hba
          exact ih hab hba

theorem charListLe_of_not_lt {a b : List Char}
    (h : ¬ charListLt b a = true) : charListLe a b = true := by
  induction a generalizing b with
  | nil => rfl
  | cons x xs ih =>
    cases b with
    | nil => simp [charListLt] at h
    | cons y ys =>
      simp only [charListLt] at h
      simp only [charListLe]
      by_cases hxy : x.toNat < y.toNat
      · simp [hxy]
      · by_cases hyx : y.toNat < x.toNat
        · simp [show ¬ x.toNat < y.toNat from hxy, hyx] at h
        · simp only [hxy, if_false, hyx, if_false]
          simp only [hyx, if_false, show ¬ x.toNat < y.toNat from hxy, if_false] at h
          exact ih h

theorem charListLt_of_le_of_ne {a b : List Char}
    (hle : charListLe a b = true) (hne : a ≠ b) : charListLt a b = true := by
  induction a generalizing b with
  | nil =>
    cases b with
    | nil => exact absurd rfl hne
    | cons y ys => rfl
  | cons x xs ih =>
    cases b with
    | nil => simp [charListLe] at hle
    | cons y ys =>
      simp only [charListLe] at hle
      simp only [charListLt]
      by_cases hxy : x.toNat < y.toNat
      · simp [hxy]
      · by_cases hyx : y.toNat < x.toNat
        · simp [hxy, hyx] at hle
        · have hchar : x = y := by
            have h1 : x.toNat = y.toNat := by omega
            exact Char.ext (UInt32.ext h1)
          subst hchar
          simp only [hxy, if_false, hyx, if_false] at hle ⊢
          apply ih hle
          intro hc
          exact hne (by rw [hc])

/-! ### UTF-8 encoding (`str.encode("utf-8")`) -/

/-- UTF-8 bytes of a single code point. -/
def utf8Char (c : Nat) : List Nat :=
  if c < 0x80 then [c]
  else if c < 0x800 then [0xC0 + c / 64, 0x80 + c % 64]
  else if c < 0x10000 then [0xE0 + c / 4096, 0x80 + c / 64 % 64, 0x80 + c % 64]
  else [0xF0 + c / 262144, 0x80 + c / 4096 % 64, 0x80 + c / 64 % 64, 0x80 + c % 64]

/-- `s.encode("utf-8")` as a byte list. -/
def utf8 (s : String) : List Nat :=
  s.data.flatMap (fun c => utf8Char c.toNat)

/-! ### SHA-256 (model of `hashlib.sha256`) -/

/-- 32-bit rotate right. -/
def rotr (n x : Nat) : Nat :=
  ((x >>> n) ||| (x <<< (32 - n))) % 4294967296

/-- The SHA-256 round constants. -/
def sha256K : List Nat :=
  [1116352408, 1899447441, 3049323471, 3921009573, 961987163,
   1508970993, 2453635748, 2870763221, 3624381080, 310598401,
   607225278, 1426881987, 1925078388, 2162078206, 2614888103,
   3248222580, 3835390401, 4022224774, 264347078, 604807628,
   770255983, 1249150122, 1555081692, 1996064986, 2554220882,
   2821834349, 2952996808, 3210313671, 3336571891, 3584528711,
   113926993, 338241895, 666307205, 773529912, 1294757372,
   1396182291, 1695183700, 1986661051, 2177026350, 2456956037,
   2730485921, 2820302411, 3259730800, 3345764771, 3516065817,
   3600352804, 4094571909, 275423344, 430227734, 506948616,
   659060556, 883997877, 958139571, 1322822218, 1537002063,
   1747873779, 1955562222, 2024104815, 2227730452, 2361852424,
   2428436474, 2756734187, 3204031479, 3329325298]

/-- Hash state: the eight working words. -/
structure Sha256State where
  h0 : Nat
  h1 : Nat
  h2 : Nat
  h3 : Nat
  h4 : Nat
  h5 : Nat
  h6 : Nat
  h7 : Nat

/-- Initial SHA-256 hash state. -/
def sha256Init : Sha256State :=
  ⟨1779033703, 3144134277, 1013904242, 2773480762,
   1359893119, 2600822924, 528734635, 1541459225⟩

/-- One SHA-256 compression step over a 64-byte block. -/
def sha256Compress (st : Sha256State) (block : List Nat) : Sha256State :=
  let w16 := (List.range 16).map fun i =>
    (block.getD (4 * i) 0) <<< 24 ||| (block.getD (4 * i + 1) 0) <<< 16 |||
    (block.getD (4 * i + 2) 0) <<< 8 ||| block.getD (4 * i + 3) 0
  let w := (List.range 48).foldl (fun ws t =>
    let wa := ws.getD (t + 1) 0
    let wb := ws.getD (t + 14) 0
    let s0 := rotr 7 wa ^^^ rotr 18 wa ^^^ (wa >>> 3)
    let s1 := rotr 17 wb ^^^ rotr 19 wb ^^^ (wb >>> 10)
    ws ++ [(ws.getD t 0 + s0 + ws.getD (t + 9) 0 + s1) % 4294967296]) w16
  let rounds := (sha256K.zip w).foldl
    (fun (r : Nat × Nat × Nat × Nat × Nat × Nat × Nat × Nat) kw =>
      let (a, b, c, d, e, f, g, h) := r
      let s1 := rotr 6 e ^^^ rotr 11 e ^^^ rotr 25 e
      let ch := (e &&& f) ^^^ ((e ^^^ 0xffffffff) &&& g)
      let t1 := (h + s1 + ch + kw.1 + kw.2) % 4294967296
      let s0 := rotr 2 a ^^^ rotr 13 a ^^^ rotr 22 a
      let mj := (a &&& b) ^^^ (a &&& c) ^^^ (b &&& c)
      let t2 := (s0 + mj) % 4294967296
      ((t1 + t2) % 4294967296, a, b, c, (d + t1) % 4294967296, e, f, g))
    (st.h0, st.h1, st.h2, st.h3, st.h4, st.h5, st.h6, st.h7)
  let (a, b, c, d, e, f, g, h) := rounds
  ⟨(st.h0 + a) % 4294967296, (st.h1 + b) % 4294967296,
   (st.h2 + c) % 4294967296, (st.h3 + d) % 4294967296,
   (st.h4 + e) % 4294967296, (st.h5 + f) % 4294967296,
   (st.h6 + g) % 4294967296, (st.h7 + h) % 4294967296⟩

/-- Big-endian 8-byte encoding of a 64-bit value. -/
def be64 (n : Nat) : List Nat :=
  (List.range 8).map fun i => n / 2 ^ (56 - 8 * i) % 256

/-- SHA-256 message padding for a message of `len` bytes. -/
def sha256Pad (len : Nat) : List Nat :=
  0x80 :: List.replicate ((119 - len % 64) % 64) 0 ++ be64 (8 * len % 2 ^ 64)

/-- Big-endian bytes of one 32-bit hash word. -/
def wordBytes (w : Nat) : List Nat :=
  [w / 16777216 % 256, w / 65536 % 256, w / 256 % 256, w % 256]

/-- The 32-byte digest of a hash state. -/
def sha256Digest (st : Sha256State) : List Nat :=
  [st.h0, st.h1, st.h2, st.h3, st.h4, st.h5, st.h6, st.h7].flatMap wordBytes

/-- `hashlib.sha256(msg).digest()`. -/
def sha256 (msg : List Nat) : List Nat :=
  let padded := msg ++ sha256Pad msg.length
  let final := (List.range (padded.length / 64)).foldl
    (fun st i => sha256Compress st ((padded.drop (64 * i)).take 64)) sha256Init
  sha256Digest final

/-! ### Hex digests and HMAC -/

/-- The sixteen lowercase hex digits. -/
def hexChars : List Char :=
  "0123456789abcdef".data

/-- Lowercase hex digit for a value `< 16`. -/
def hexc (n : Nat) : Char := hexChars.getD n '0'

/-- Two lowercase hex digits of one byte (`bytes.hex()` per byte). -/
def hexByte (b : Nat) : List Char := [hexc (b / 16), hexc (b % 16)]

/-- `.hexdigest()` / `bytes.hex()`: lowercase hex string of a byte list. -/
def hexDigest (bs : List Nat) : String :=
  String.mk (bs.flatMap hexByte)

/-- `hmac.new(key, msg, hashlib.sha256).digest()` (RFC 2104, block size 64). -/
def hmacSha256 (key msg : List Nat) : List Nat :=
  let k0 := if 64 < key.length then sha256 key else key
  let kp := k0 ++ List.replicate (64 - k0.length) 0
  sha256 ((kp.map (fun b => b ^^^ 0x5c)) ++
    sha256 ((kp.map (fun b => b ^^^ 0x36)) ++ msg))

/-! ### The `sign` / `get_signature_key` pair (upload.py lines 142-151) -/

/-- `sign(key, msg)`: HMAC-SHA256 of the UTF-8 bytes of `msg` under `key`. -/
def sign (key : List Nat) (msg : String) : List Nat :=
  hmacSha256 key (utf8 msg)

/-- `get_signature_key(secret, date_stamp, region, service)`. -/
def get_signature_key (secret date_stamp region service : String) : List Nat :=
  let k_date := sign (utf8 ("AWS4" ++ secret)) date_stamp
  let k_region := sign k_date region
  let k_service := sign k_region service
  let k_signing := sign k_service "aws4_request"
  k_signing

/-! ### Percent-encoding (`urllib.parse.quote`) -/

/-- The sixteen uppercase hex digits (as `quote` uses). -/
def hexUChars : List Char :=
  "0123456789ABCDEF".data

/-- Uppercase hex digit for a value `< 16`. -/
def hexU (n : Nat) : Char := hexUChars.getD n '0'

/-- `quote` never encodes ASCII letters, digits, or `_ . - ~`. -/
def alwaysSafeByte (b : Nat) : Bool :=
  (65 ≤ b && b ≤ 90) || (97 ≤ b && b ≤ 122) || (48 ≤ b && b ≤ 57) ||
  b = 45 || b = 46 || b = 95 || b = 126

/-- One byte under `quote`: pass through when safe, else `%XX`. -/
def quoteByte (safe : List Nat) (b : Nat) : List Char :=
  if alwaysSafeByte b || safe.contains b then [Char.ofNat b]
  else ['%', hexU (b / 16), hexU (b % 16)]

/-- `urllib.parse.quote(s, safe=...)`: UTF-8 encode, then percent-encode
every byte that is neither always-safe nor in `safe`. -/
def pyQuote (s : String) (safe : List Nat) : String :=
  String.mk ((utf8 s).flatMap (quoteByte safe))

/-- `_aws_encode_uri(value)`: `quote(value, safe="/~")`. -/
def _aws_encode_uri (value : String) : String :=
  pyQuote value ['/'.toNat, '~'.toNat]

/-- `_aws_encode_query_param(value)`: `quote(str(value), safe="-_.~")`. -/
def _aws_encode_query_param (value : String) : String :=
  pyQuote value ['-'.toNat, '_'.toNat, '.'.toNat, '~'.toNat]

/-! ### Small canonicalizers (upload.py lines 93-139) -/

/-- `_normalize_key(key)`: `key.replace("\\", "/").lstrip("/")`. -/
def _normalize_key (key : String) : String :=
  String.mk (pyLstrip '/' (key.data.map (fun c => if c = '\\' then '/' else c)))

/-- `_normalize_header_value(value)`: `" ".join(str(value).strip().split())`. -/
def _normalize_header_value (value : String) : String :=
  joinSep " " ((pyWords (pyStrip value.data)).map String.mk)

/-! ### Content-type resolution (upload.py lines 104-127) -/

/-- `os.path.splitext(name)[1]`: the extension (with dot) of the basename,
empty when the basename has no dot after its leading dots. -/
def pySplitextExt (name : List Char) : List Char :=
  let base := (name.reverse.takeWhile (fun c => c ≠ '/')).reverse
  let rest := base.dropWhile (fun c => c = '.')
  let tail := rest.reverse.takeWhile (fun c => c ≠ '.')
  if tail.length = rest.length then [] else '.' :: tail.reverse

/-- Model of the Python stdlib `mimetypes.types_map` (external dependency),
restricted to entries relevant here; lookups are on the lowercased extension. -/
def mimeTypesMap : List (String × String) :=
  [(".jpg", "image/jpeg"), (".jpeg", "image/jpeg"), (".jpe", "image/jpeg"),
   (".png", "image/png"), (".gif", "image/gif"), (".svg", "image/svg+xml"),
   (".pdf", "application/pdf"), (".json", "application/json"),
   (".txt", "text/plain"), (".html", "text/html"), (".htm", "text/html"),
   (".css", "text/css"), (".bin", "application/octet-stream")]

/-- Model of `mimetypes.guess_type(name)[0]` (extension lookup, case-insensitive). -/
def mimetypesGuess (name : String) : Option String :=
  mimeTypesMap.lookup (String.mk ((pySplitextExt name.data).map Char.toLower))

/-- The fixed fallback table of `_guess_content_type`. -/
def contentTypeFallback : List (String × String) :=
  [(".jpg", "image/jpeg"), (".jpeg", "image/jpeg"), (".png", "image/png"),
   (".gif", "image/gif"), (".webp", "image/webp"), (".svg", "image/svg+xml"),
   (".pdf", "application/pdf"), (".md", "text/markdown"), (".yml", "text/yaml"),
   (".yaml", "text/yaml"), (".json", "application/json"), (".txt", "text/plain")]

/-- `_guess_content_type(name, override)`. -/
def _guess_content_type (name : String) (override : Option String) : String :=
  if override.getD "" ≠ "" then override.getD ""
  else
    match mimetypesGuess name with
    | some mime => mime
    | none =>
      let ext := String.mk ((pySplitextExt name.data).map Char.toLower)
      (contentTypeFallback.lookup ext).getD "application/octet-stream"

/-! ### Expiry validation and endpoint normalization -/

/-- `MAX_PRESIGN_EXPIRES = 604800` (7 days). -/
def MAX_PRESIGN_EXPIRES : Int := 604800

/-- `_validate_expires(expires)` for an integer argument (the
`int(expires)` conversion is the identity on integers). -/
def _validate_expires (expires : Int) : Except R2UploadError Int :=
  if expires < 1 || MAX_PRESIGN_EXPIRES < expires then
    .error ⟨"expires must be between 1 and " ++ toString MAX_PRESIGN_EXPIRES ++ " seconds"⟩
  else .ok expires

/-- The scheme-defaulting step of `_normalize_endpoint`: prefix `https://`
unless the string already starts with `http://` or `https://`. -/
def ensureScheme (e0 : List Char) : List Char :=
  if pyStartsWith "http://".data e0 || pyStartsWith "https://".data e0 then e0
  else "https://".data ++ e0

/-- The scheme of a string that starts with `http://` or `https://`. -/
def schemeOf (e1 : List Char) : String :=
  if pyStartsWith "http://".data e1 then "http" else "https"

/-- `_normalize_endpoint(endpoint) -> (scheme://netloc, netloc)`;
`urlparse` on a string with an explicit `http(s)` scheme splits the
netloc at the first of `/ ? #` and the path at the first of `? #`. -/
def _normalize_endpoint (endpoint : String) : Except R2UploadError (String × String) :=
  let e1 := ensureScheme (pyRstrip '/' (pyStrip endpoint.data))
  let scheme := schemeOf e1
  let rest := e1.drop (scheme.length + 3)
  let netloc := rest.takeWhile (fun c => c ≠ '/' && c ≠ '?' && c ≠ '#')
  let path := (rest.dropWhile (fun c => c ≠ '/' && c ≠ '?' && c ≠ '#')).takeWhile
    (fun c => c ≠ '?' && c ≠ '#')
  if netloc = [] then .error ⟨"Invalid endpoint: " ++ String.mk e1⟩
  else if path ≠ [] && path ≠ ['/'] then
    .error ⟨"Endpoint should not include a path. Use bucket_name/public_url instead."⟩
  else .ok (scheme ++ "://" ++ String.mk netloc, String.mk netloc)

/-! ### Configuration records (consumed YAML mappings) -/

/-- One bucket record of the `buckets` mapping.  Required string fields
model `dict.get(field)` with `""` standing for missing-or-empty (both
are falsy in Python); optional fields model present-vs-absent keys. -/
structure BucketConfig where
  endpoint : String
  access_key_id : String
  secret_access_key : String
  bucket_name : String
  public_url : Option String
  region : Option String
  session_token : Option String
deriving DecidableEq, Repr

/-- The loaded YAML config: `config.get("default")` and the `buckets` mapping. -/
structure Config where
  default_bucket : Option String
  buckets : List (String × BucketConfig)
deriving DecidableEq, Repr

/-- `REQUIRED_BUCKET_FIELDS`. -/
def REQUIRED_BUCKET_FIELDS : List String :=
  ["endpoint", "access_key_id", "secret_access_key", "bucket_name"]

/-- `bucket_config.get(field)` for the required fields. -/
def bucketGet (bc : BucketConfig) (field : String) : String :=
  if field = "endpoint" then bc.endpoint
  else if field = "access_key_id" then bc.access_key_id
  else if field = "secret_access_key" then bc.secret_access_key
  else if field = "bucket_name" then bc.bucket_name
  else ""

/-- Python's `<=` on strings, as a relation. -/
def strLeRel (a b : String) : Prop := strLeB a b = true

/-- Python's `<` on strings, as a relation. -/
def strLtRel (a b : String) : Prop := strLtB a b = true

/-- Comparison of dict items by key. -/
def pairLeRel (a b : String × String) : Prop := strLeB a.1 b.1 = true

/-- Strict comparison of dict items by key. -/
def pairLtRel (a b : String × String) : Prop := strLtB a.1 b.1 = true

instance : DecidableRel strLeRel := fun _ _ => instDecidableEqBool _ _

instance : DecidableRel strLtRel := fun _ _ => instDecidableEqBool _ _

instance : DecidableRel pairLeRel := fun _ _ => instDecidableEqBool _ _

instance : DecidableRel pairLtRel := fun _ _ => instDecidableEqBool _ _

instance : IsTotal String strLeRel := ⟨fun a b => charListLe_total a.data b.data⟩

instance : IsTrans String strLeRel := ⟨fun _ _ _ hab hbc => charListLe_trans hab hbc⟩

instance : IsAntisymm String strLtRel := ⟨fun _ _ h1 h2 => (charListLt_asymm h1 h2).elim⟩

instance : IsTotal (String × String) pairLeRel :=
  ⟨fun a b => charListLe_total a.1.data b.1.data⟩

instance : IsTrans (String × String) pairLeRel :=
  ⟨fun _ _ _ hab hbc => charListLe_trans hab hbc⟩

instance : IsAntisymm (String × String) pairLtRel :=
  ⟨fun _ _ h1 h2 => (charListLt_asymm h1 h2).elim⟩

/-- Sorting a string list by Python's `sorted` (code-point order). -/
def sortStrings (l : List String) : List String :=
  l.insertionSort strLeRel

/-- `sorted(d.items())` for a dict with unique keys: sort the pairs by key
(values are never compared because key ties cannot occur). -/
def sortPairs (l : List (String × String)) : List (String × String) :=
  l.insertionSort pairLeRel

/-- `resolve_bucket_config(config, bucket)` (upload.py lines 58-76). -/
def resolve_bucket_config (config : Config) (bucket : Option String) :
    Except R2UploadError (String × BucketConfig) :=
  let bucket_name : Option String :=
    match bucket with
    | some b => if b ≠ "" then some b else config.default_bucket
    | none => config.default_bucket
  match bucket_name with
  | none => .error ⟨"No bucket specified and no 'default' bucket in config"⟩
  | some bn =>
    if bn = "" then .error ⟨"No bucket specified and no 'default' bucket in config"⟩
    else
      match config.buckets.lookup bn with
      | none =>
        .error ⟨"Bucket '" ++ bn ++ "' not found. Available: " ++
          joinSep ", " (sortStrings (config.buckets.map Prod.fst))⟩
      | some bc =>
        let missing := REQUIRED_BUCKET_FIELDS.filter (fun f => bucketGet bc f = "")
        if missing ≠ [] then
          .error ⟨"Bucket '" ++ bn ++ "' missing required fields: " ++ joinSep ", " missing⟩
        else .ok (bn, bc)

/-! ### Presigned GET URLs (upload.py lines 183-236) -/

/-- The signing instant: `now.strftime("%Y%m%d")` and
`now.strftime("%Y%m%dT%H%M%SZ")` of one fixed UTC `now`. -/
structure Instant where
  date_stamp : String
  amz_date : String
deriving DecidableEq, Repr

/-- `bucket_config.get("region", "auto")`. -/
def regionOf (bc : BucketConfig) : String := bc.region.getD "auto"

/-- `credential_scope = f"{date_stamp}/{region}/s3/aws4_request"`. -/
def credentialScope (bc : BucketConfig) (now : Instant) : String :=
  now.date_stamp ++ "/" ++ regionOf bc ++ "/s3/aws4_request"

/-- The `params` dict of `generate_presigned_url`, in insertion order. -/
def presign_params (bc : BucketConfig) (now : Instant) (expires : Int) :
    List (String × String) :=
  [("X-Amz-Algorithm", "AWS4-HMAC-SHA256"),
   ("X-Amz-Credential", bc.access_key_id ++ "/" ++ credentialScope bc now),
   ("X-Amz-Date", now.amz_date),
   ("X-Amz-Expires", toString expires),
   ("X-Amz-SignedHeaders", "host")] ++
  (match bc.session_token with
   | some t => if t ≠ "" then [("X-Amz-Security-Token", t)] else []
   | none => [])

/-- `canonical_query`: sorted params, each side query-encoded, `&`-joined. -/
def presign_canonical_query (bc : BucketConfig) (now : Instant) (expires : Int) : String :=
  joinSep "&" ((sortPairs (presign_params bc now expires)).map
    (fun kv => _aws_encode_query_param kv.1 ++ "=" ++ _aws_encode_query_param kv.2))

/-- The canonical GET request of `generate_presigned_url`. -/
def presign_canonical_request (bc : BucketConfig) (key : String) (now : Instant)
    (expires : Int) (host : String) : String :=
  "GET\n/" ++ bc.bucket_name ++ "/" ++ _aws_encode_uri key ++ "\n" ++
  presign_canonical_query bc now expires ++ "\n" ++
  "host:" ++ host ++ "\n\nhost\nUNSIGNED-PAYLOAD"

/-- `string_to_sign` shared by both signing modes. -/
def stringToSign (now : Instant) (scope : String) (canonical_request : String) : String :=
  "AWS4-HMAC-SHA256\n" ++ now.amz_date ++ "\n" ++ scope ++ "\n" ++
  hexDigest (sha256 (utf8 canonical_request))

/-- The hex signature of `generate_presigned_url` (`key` already normalized). -/
def presign_signature (bc : BucketConfig) (key : String) (now : Instant)
    (expires : Int) (host : String) : String :=
  hexDigest (hmacSha256
    (get_signature_key bc.secret_access_key now.date_stamp (regionOf bc) "s3")
    (utf8 (stringToSign now (credentialScope bc now)
      (presign_canonical_request bc key now expires host))))

/-- `generate_presigned_url(key, bucket_config, expires)` at instant `now`. -/
def generate_presigned_url (key : String) (bc : BucketConfig) (expires : Int)
    (now : Instant) : Except R2UploadError String :=
  let key := _normalize_key key
  match _validate_expires expires with
  | .error e => .error e
  | .ok expires =>
    match _normalize_endpoint bc.endpoint with
    | .error e => .error e
    | .ok (endpoint, host) =>
      .ok (endpoint ++ "/" ++ bc.bucket_name ++ "/" ++ _aws_encode_uri key ++ "?" ++
        presign_canonical_query bc now expires ++ "&X-Amz-Signature=" ++
        presign_signature bc key now expires host)

/-! ### Header-mode signing: the pre-network part of `upload_bytes`
(upload.py lines 253-326) -/

/-- `canonical_headers`: `name:value\n` per header, key-sorted, concatenated. -/
def canonical_headers_str (headers : List (String × String)) : String :=
  joinAll ((sortPairs headers).map
    (fun kv => kv.1 ++ ":" ++ _normalize_header_value kv.2 ++ "\n"))

/-- `signed_headers`: `;`-joined sorted header names. -/
def signed_headers_str (headers : List (String × String)) : String :=
  joinSep ";" (sortStrings (headers.map Prod.fst))

/-- A conditionally added header (`if value:` — absent or empty adds nothing). -/
def optHeader (name : String) (v : Option String) : List (String × String) :=
  match v with
  | some s => if s ≠ "" then [(name, s)] else []
  | none => []

/-- Everything `upload_bytes` assembles before the `urllib` PUT call. -/
structure PreparedPut where
  url : String
  key : String
  headers : List (String × String)
  authorization : String
  canonical_uri : String
  canonical_request : String
  signature : String
deriving DecidableEq, Repr

/-- The pre-network part of `upload_bytes`: configuration resolution, key
normalization, header assembly and SigV4 header-mode signing.  `genName`
stands for the environment-supplied default key
`YYYY/MM/DD/upload-<uuid4-hex-8>.bin` used when `key is None`. -/
def upload_bytes_prepare (data : List Nat) (key : Option String)
    (bucket : Option String) (config : Config) (genName : String)
    (content_type : Option String) (cache_control : Option String)
    (content_disposition : Option String) (now : Instant) :
    Except R2UploadError PreparedPut :=
  match resolve_bucket_config config bucket with
  | .error e => .error e
  | .ok (bucket_name, bc) =>
    let key0 := match key with
      | none => genName
      | some k => k
    let key := _normalize_key key0
    match _normalize_endpoint bc.endpoint with
    | .error e => .error e
    | .ok (endpoint, host) =>
      let content_type := _guess_content_type key content_type
      let payload_hash := hexDigest (sha256 data)
      let headers :=
        [("host", host), ("x-amz-content-sha256", payload_hash),
         ("x-amz-date", now.amz_date), ("content-type", content_type)] ++
        optHeader "cache-control" cache_control ++
        optHeader "content-disposition" content_disposition ++
        optHeader "x-amz-security-token" bc.session_token
      let canonical_uri := "/" ++ bucket_name ++ "/" ++ _aws_encode_uri key
      let canonical_request := "PUT\n" ++ canonical_uri ++ "\n\n" ++
        canonical_headers_str headers ++ "\n" ++ signed_headers_str headers ++
        "\n" ++ payload_hash
      let scope := credentialScope bc now
      let signature := hexDigest (hmacSha256
        (get_signature_key bc.secret_access_key now.date_stamp (regionOf bc) "s3")
        (utf8 (stringToSign now scope canonical_request)))
      let auth := "AWS4-HMAC-SHA256 Credential=" ++ bc.access_key_id ++ "/" ++ scope ++
        ", SignedHeaders=" ++ signed_headers_str headers ++ ", Signature=" ++ signature
      .ok ⟨endpoint ++ "/" ++ bucket_name ++ "/" ++ _aws_encode_uri key, key,
        headers ++ [("Authorization", auth)], auth, canonical_uri,
        canonical_request, signature⟩

/-! ## Theorems for the claims -/

/-- C1: `get_signature_key(secret, dateStamp, region, service)` is exactly the
four-stage HMAC-SHA256 chain
`HMAC(HMAC(HMAC(HMAC("AWS4"+secret, dateStamp), region), service), "aws4_request")`,
each stage keying the next with its output, and two calls on the identical
argument tuple return identical byte sequences. -/
theorem get_signature_key_is_hmac_chain (secret dateStamp region service : String) :
    get_signature_key secret dateStamp region service =
      sign (sign (sign (sign (utf8 ("AWS4" ++ secret)) dateStamp) region) service)
        "aws4_request" ∧
    get_signature_key secret dateStamp region service =
      get_signature_key secret dateStamp region service :=
  ⟨rfl, rfl⟩

/-- C6: `_normalize_key` replaces every backslash by a forward slash and then
strips all leading slashes; in particular on the two spec examples. -/
theorem normalize_key_spec :
    (∀ k : String, _normalize_key k =
      String.mk ((k.data.map (fun c => if c = '\\' then '/' else c)).dropWhile
        (fun c => c = '/'))) ∧
    _normalize_key "\\a\\b\\c.txt" = "a/b/c.txt" ∧
    _normalize_key "/already/clean.txt" = "already/clean.txt" :=
  ⟨fun _ => rfl, by decide, by decide⟩

theorem backslash_map_fixed {c : Char}
    (h : ∃ a, c = if a = '\\' then '/' else a) :
    (if c = '\\' then '/' else c) = c := by
  rcases h with ⟨a, rfl⟩
  by_cases ha : a = '\\' <;> simp [ha]

/-- C10: key normalization is idempotent, so the re-normalization that
`upload_bytes` performs on keys built by its callers never changes the key. -/
theorem normalize_key_idempotent (k : String) :
    _normalize_key (_normalize_key k) = _normalize_key k := by
  unfold _normalize_key pyLstrip
  congr 1
  have hfix : ∀ c ∈ (k.data.map (fun c => if c = '\\' then '/' else c)).dropWhile
      (fun d => decide (d = '/')), (if c = '\\' then '/' else c) = c := by
    intro c hc
    have hc' : c ∈ k.data.map (fun c => if c = '\\' then '/' else c) :=
      (List.dropWhile_sublist _).subset hc
    rcases List.mem_map.mp hc' with ⟨a, _, rfl⟩
    exact backslash_map_fixed ⟨a, rfl⟩
  have hmap : ((k.data.map (fun c => if c = '\\' then '/' else c)).dropWhile
        (fun d => decide (d = '/'))).map (fun c => if c = '\\' then '/' else c) =
      (k.data.map (fun c => if c = '\\' then '/' else c)).dropWhile
        (fun d => decide (d = '/')) := by
    calc ((k.data.map (fun c => if c = '\\' then '/' else c)).dropWhile
            (fun d => decide (d = '/'))).map (fun c => if c = '\\' then '/' else c)
        = ((k.data.map (fun c => if c = '\\' then '/' else c)).dropWhile
            (fun d => decide (d = '/'))).map id := List.map_congr_left hfix
      _ = _ := List.map_id _
  rw [show ∀ l : List Char, (String.mk l).data = l from fun _ => rfl]
  rw [hmap, List.dropWhile_idempotent]

/-- C9: content-type resolution priority: a non-empty explicit override always
wins; otherwise the MIME-type lookup on the name; otherwise the fixed fallback
table keyed by lowercased extension, defaulting to `application/octet-stream`;
with the three concrete cases of the spec. -/
theorem guess_content_type_priority :
    (∀ (name o : String), o ≠ "" → _guess_content_type name (some o) = o) ∧
    (∀ (name m : String), mimetypesGuess name = some m →
      _guess_content_type name none = m) ∧
    (∀ name : String, mimetypesGuess name = none →
      _guess_content_type name none =
        ((contentTypeFallback.lookup
          (String.mk ((pySplitextExt name.data).map Char.toLower))).getD
          "application/octet-stream")) ∧
    _guess_content_type "photo.jpg" (some "text/custom") = "text/custom" ∧
    _guess_content_type "photo.jpg" none = "image/jpeg" ∧
    _guess_content_type "data.xyz" none = "application/octet-stream" := by
  refine ⟨?_, ?_, ?_, by decide, by decide, by decide⟩
  · intro name o ho
    simp [_guess_content_type, Option.getD, ho]
  · intro name m hm
    simp [_guess_content_type, Option.getD, hm]
  · intro name hm
    simp [_guess_content_type, Option.getD, hm]

/-- Witness for C9 at concrete inputs. -/
theorem guess_content_type_priority_witness :
    _guess_content_type "photo.jpg" (some "text/custom") = "text/custom" ∧
    _guess_content_type "photo.jpg" none = "image/jpeg" ∧
    _guess_content_type "data.xyz" none =
      ((contentTypeFallback.lookup
        (String.mk ((pySplitextExt "data.xyz".data).map Char.toLower))).getD
        "application/octet-stream") :=
  ⟨guess_content_type_priority.1 "photo.jpg" "text/custom" (by decide),
   guess_content_type_priority.2.1 "photo.jpg" "image/jpeg" (by decide),
   guess_content_type_priority.2.2.1 "data.xyz" (by decide)⟩

theorem validate_expires_ok {e : Int} (h1 : 1 ≤ e) (h2 : e ≤ 604800) :
    _validate_expires e = .ok e := by
  unfold _validate_expires MAX_PRESIGN_EXPIRES
  rw [if_neg]
  simp only [Bool.or_eq_true, decide_eq_true_eq, not_or, not_lt]
  omega

theorem validate_expires_err {e : Int} (h : e < 1 ∨ 604800 < e) :
    _validate_expires e =
      .error ⟨"expires must be between 1 and " ++ toString MAX_PRESIGN_EXPIRES ++
        " seconds"⟩ := by
  unfold _validate_expires
  rw [if_pos]
  simp only [MAX_PRESIGN_EXPIRES, Bool.or_eq_true, decide_eq_true_eq]
  omega

theorem invalid_endpoint_msg_ne (s : String) :
    R2UploadError.mk ("Invalid endpoint: " ++ s) ≠
      R2UploadError.mk ("expires must be between 1 and " ++
        toString MAX_PRESIGN_EXPIRES ++ " seconds") := by
  cases s with
  | mk d =>
    intro h
    have hm := congrArg R2UploadError.msg h
    have hd := congrArg String.data hm
    rw [show ("Invalid endpoint: " ++ String.mk d).data =
      "Invalid endpoint: ".data ++ d from rfl] at hd
    have h3 := congrArg (fun l => List.take 18 l) hd
    simp only [List.take_append_of_le_length (by decide :
      18 ≤ "Invalid endpoint: ".data.length)] at h3
    exact absurd h3 (by decide)

theorem normalize_endpoint_error_shape {s : String} {err : R2UploadError}
    (h : _normalize_endpoint s = .error err) :
    (∃ t, err = ⟨"Invalid endpoint: " ++ t⟩) ∨
    err = ⟨"Endpoint should not include a path. Use bucket_name/public_url instead."⟩ := by
  simp only [_normalize_endpoint] at h
  split at h
  · exact Or.inl ⟨_, ((Except.error.injEq _ _).mp h).symm⟩
  · split at h
    · exact Or.inr ((Except.error.injEq _ _).mp h).symm
    · exact Except.noConfusion h

/-- C4: presigned-URL generation fails with the expires `ValidationError`
exactly when `expires` is outside `[1, 604800]`; inside the bounds the
validator returns the value unchanged, the query's `X-Amz-Expires` equals the
given value, and (with a valid endpoint) generation succeeds. -/
theorem presign_expires_bounds (e : Int) (key : String) (bc : BucketConfig)
    (now : Instant) :
    (isOkE (_validate_expires e) = true ↔ 1 ≤ e ∧ e ≤ 604800) ∧
    (generate_presigned_url key bc e now =
        .error ⟨"expires must be between 1 and " ++ toString MAX_PRESIGN_EXPIRES ++
          " seconds"⟩ ↔
      (e < 1 ∨ 604800 < e)) ∧
    (1 ≤ e → e ≤ 604800 →
      (presign_params bc now e).lookup "X-Amz-Expires" = some (toString e)) ∧
    (1 ≤ e → e ≤ 604800 → ∀ ep host,
      _normalize_endpoint bc.endpoint = .ok (ep, host) →
      isOkE (generate_presigned_url key bc e now) = true) := by
  refine ⟨?_, ⟨?_, ?_⟩, ?_, ?_⟩
  · unfold _validate_expires MAX_PRESIGN_EXPIRES
    by_cases h1 : e < 1
    · rw [if_pos (by simp [h1])]
      simp only [isOkE]
      constructor
      · intro h
        exact absurd h (by simp)
      · intro h
        exfalso
        omega
    · by_cases h2 : (604800 : Int) < e
      · rw [if_pos (by simp [h2])]
        simp only [isOkE]
        constructor
        · intro h
          exact absurd h (by simp)
        · intro h
          exfalso
          omega
      · rw [if_neg (by simp [h1, h2])]
        simp only [isOkE]
        constructor
        · intro h
          omega
        · intro h
          trivial
  · intro h
    by_cases hin : e < 1 ∨ 604800 < e
    · exact hin
    · exfalso
      push_neg at hin
      rw [generate_presigned_url, validate_expires_ok hin.1 hin.2] at h
      cases hnorm : _normalize_endpoint bc.endpoint with
      | error err =>
        rw [hnorm] at h
        have herr := (Except.error.injEq _ _).mp h
        rcases normalize_endpoint_error_shape hnorm with ⟨t, rfl⟩ | rfl
        · exact invalid_endpoint_msg_ne t herr
        · exact absurd (congrArg R2UploadError.msg herr) (by decide)
      | ok pair =>
        rw [hnorm] at h
        exact Except.noConfusion h
  · intro h
    rw [generate_presigned_url, validate_expires_err h]
  · intro h1 h2
    rfl
  · intro h1 h2 ep host hnorm
    rw [generate_presigned_url, validate_expires_ok h1 h2, hnorm]
    rfl

/-- Witness for C4: `0` and `604801` fail with the expires error; `1` and
`604800` succeed on a valid bucket config. -/
theorem presign_expires_bounds_witness :
    (generate_presigned_url "a.txt"
        ⟨"https://h.example", "AKID", "sec", "bkt", none, none, none⟩ 0
        ⟨"20250115", "20250115T000000Z"⟩ =
      .error ⟨"expires must be between 1 and " ++ toString MAX_PRESIGN_EXPIRES ++
        " seconds"⟩) ∧
    (generate_presigned_url "a.txt"
        ⟨"https://h.example", "AKID", "sec", "bkt", none, none, none⟩ 604801
        ⟨"20250115", "20250115T000000Z"⟩ =
      .error ⟨"expires must be between 1 and " ++ toString MAX_PRESIGN_EXPIRES ++
        " seconds"⟩) ∧
    ((generate_presigned_url "a.txt"
        ⟨"https://h.example", "AKID", "sec", "bkt", none, none, none⟩ 1
        ⟨"20250115", "20250115T000000Z"⟩ |> isOkE) = true) ∧
    ((generate_presigned_url "a.txt"
        ⟨"https://h.example", "AKID", "sec", "bkt", none, none, none⟩ 604800
        ⟨"20250115", "20250115T000000Z"⟩ |> isOkE) = true) :=
  ⟨(presign_expires_bounds 0 "a.txt" _ _).2.1.mpr (by decide),
   (presign_expires_bounds 604801 "a.txt" _ _).2.1.mpr (by decide),
   (presign_expires_bounds 1 "a.txt" _ _).2.2.2 (by decide) (by decide)
     "https://h.example" "h.example" (by rfl),
   (presign_expires_bounds 604800 "a.txt" _ _).2.2.2 (by decide) (by decide)
     "https://h.example" "h.example" (by rfl)⟩

theorem resolve_ok_fields {config : Config} {bucket : Option String} {bn : String}
    {bc : BucketConfig} (h : resolve_bucket_config config bucket = .ok (bn, bc)) :
    REQUIRED_BUCKET_FIELDS.filter (fun f => bucketGet bc f = "") = [] := by
  simp only [resolve_bucket_config] at h
  split at h
  · exact Except.noConfusion h
  · split at h
    · exact Except.noConfusion h
    · split at h
      · exact Except.noConfusion h
      · split at h
        · exact Except.noConfusion h
        · rename_i hmiss
          have hpair := (Except.ok.injEq _ _).mp h
          have hbc : bc = _ := ((Prod.mk.injEq _ _ _ _).mp hpair.symm).2
          rw [hbc]
          simpa using hmiss

theorem resolve_ok_required_nonempty {config : Config} {bucket : Option String}
    {bn : String} {bc : BucketConfig}
    (h : resolve_bucket_config config bucket = .ok (bn, bc)) :
    bc.bucket_name ≠ "" := by
  intro he
  have hf := resolve_ok_fields h
  have hm : "bucket_name" ∈ REQUIRED_BUCKET_FIELDS.filter
      (fun f => bucketGet bc f = "") := by
    rw [List.mem_filter]
    refine ⟨by decide, ?_⟩
    show decide (bc.bucket_name = "") = true
    rw [he]
    rfl
  rw [hf] at hm
  exact absurd hm (List.not_mem_nil _)

theorem upload_bytes_prepare_ok {config : Config} {bucket : Option String}
    {bn : String} {bc : BucketConfig} {ep host : String}
    (data : List Nat) (k : String) (genName : String) (ct cc cd : Option String)
    (now : Instant)
    (hres : resolve_bucket_config config bucket = .ok (bn, bc))
    (hnorm : _normalize_endpoint bc.endpoint = .ok (ep, host)) :
    ∃ p, upload_bytes_prepare data (some k) bucket config genName ct cc cd now = .ok p ∧
      p.key = _normalize_key k ∧
      p.canonical_uri = "/" ++ bn ++ "/" ++ _aws_encode_uri (_normalize_key k) ∧
      p.url = ep ++ "/" ++ bn ++ "/" ++ _aws_encode_uri (_normalize_key k) := by
  simp only [upload_bytes_prepare, hres, hnorm]
  exact ⟨_, rfl, rfl, rfl, rfl⟩

/-- C3 counterexample: with a fully valid bucket record, `upload_bytes` does
not reject the key `"/"` (which normalizes to the empty key): the signing core
proceeds to build a canonical request and reports success of the preparation
phase instead of a `ValidationError`. -/
theorem upload_empty_key_not_rejected :
    isOkE (upload_bytes_prepare [] (some "/") none
      ⟨some "assets", [("assets", ⟨"https://h.example", "AKID", "sec", "assets",
        none, none, none⟩)]⟩ "gen" none none none
      ⟨"20250115", "20250115T000000Z"⟩) = true := by rfl

/-- C3 amended: header-mode upload fails with `R2UploadError` when the
configured bucket record has an empty `bucket_name` (required-field
validation in `resolve_bucket_config`), but an empty object key is NOT
rejected: a key normalizing to empty (such as `"/"`) proceeds, and the
canonical request is built with canonical URI `/{bucket}/`. -/
theorem upload_validation_amended :
    (∀ (config : Config) (bucket : Option String) (bn : String) (bc : BucketConfig),
      resolve_bucket_config config bucket = .ok (bn, bc) → bc.bucket_name ≠ "") ∧
    (∀ (config : Config) (bucket : Option String) (bn : String) (bc : BucketConfig)
      (data : List Nat) (genName : String) (ct cc cd : Option String) (now : Instant)
      (ep host : String),
      resolve_bucket_config config bucket = .ok (bn, bc) →
      _normalize_endpoint bc.endpoint = .ok (ep, host) →
      ∃ p, upload_bytes_prepare data (some "/") bucket config genName ct cc cd now =
          .ok p ∧
        p.key = "" ∧ p.canonical_uri = "/" ++ bn ++ "/") := by
  constructor
  · intro config bucket bn bc h
    exact resolve_ok_required_nonempty h
  · intro config bucket bn bc data genName ct cc cd now ep host hres hnorm
    obtain ⟨p, hp, hkey, huri, _⟩ :=
      upload_bytes_prepare_ok data "/" genName ct cc cd now hres hnorm
    refine ⟨p, hp, ?_, ?_⟩
    · rw [hkey]
      rfl
    · rw [huri, show _aws_encode_uri (_normalize_key "/") = "" from rfl]
      exact String.append_empty _

/-- Witness for the amended C3 at a concrete configuration. -/
theorem upload_validation_amended_witness :
    ((⟨"https://h.example", "AKID", "sec", "assets", none, none, none⟩ :
        BucketConfig).bucket_name ≠ "") ∧
    (∃ p, upload_bytes_prepare [] (some "/") none
        ⟨some "assets", [("assets", ⟨"https://h.example", "AKID", "sec", "assets",
          none, none, none⟩)]⟩ "gen" none none none
        ⟨"20250115", "20250115T000000Z"⟩ = .ok p ∧
      p.key = "" ∧ p.canonical_uri = "/assets/") :=
  ⟨upload_validation_amended.1
     ⟨some "assets", [("assets", ⟨"https://h.example", "AKID", "sec", "assets",
       none, none, none⟩)]⟩ none "assets"
     ⟨"https://h.example", "AKID", "sec", "assets", none, none, none⟩ (by rfl),
   upload_validation_amended.2
     ⟨some "assets", [("assets", ⟨"https://h.example", "AKID", "sec", "assets",
       none, none, none⟩)]⟩ none "assets"
     ⟨"https://h.example", "AKID", "sec", "assets", none, none, none⟩
     [] "gen" none none none ⟨"20250115", "20250115T000000Z"⟩
     "https://h.example" "h.example" (by rfl) (by rfl)⟩

/-! ### Output-shape lemmas for digests and signatures -/

theorem wordBytes_lt (w : Nat) : ∀ b ∈ wordBytes w, b < 256 := by
  intro b hb
  simp [wordBytes] at hb
  rcases hb with rfl | rfl | rfl | rfl <;> omega

theorem sha256_mem_lt (m : List Nat) : ∀ b ∈ sha256 m, b < 256 := by
  intro b hb
  simp only [sha256, sha256Digest] at hb
  rw [List.mem_flatMap] at hb
  obtain ⟨w, _, hw⟩ := hb
  exact wordBytes_lt w b hw

theorem sha256_length (m : List Nat) : (sha256 m).length = 32 := by
  simp [sha256, sha256Digest, wordBytes]

theorem hmacSha256_length (k msg : List Nat) : (hmacSha256 k msg).length = 32 := by
  simp only [hmacSha256]
  exact sha256_length _

theorem hexDigest_length (bs : List Nat) : (hexDigest bs).length = 2 * bs.length := by
  show (bs.flatMap hexByte).length = 2 * bs.length
  induction bs with
  | nil => rfl
  | cons b t ih =>
    simp only [List.flatMap_cons, List.length_append, ih, hexByte, List.length_cons,
      List.length_nil]
    omega

theorem hexc_mem (n : Nat) : hexc n ∈ hexChars := by
  unfold hexc
  by_cases h : n < 16
  · interval_cases n <;> decide
  · rw [List.getD_eq_default]
    · decide
    · simp only [hexChars, List.length_cons, List.length_nil]
      omega

theorem hexDigest_chars (bs : List Nat) : ∀ c ∈ (hexDigest bs).data, c ∈ hexChars := by
  intro c hc
  have hc' : c ∈ bs.flatMap hexByte := hc
  rw [List.mem_flatMap] at hc'
  obtain ⟨b, _, hcb⟩ := hc'
  simp [hexByte] at hcb
  rcases hcb with rfl | rfl <;> exact hexc_mem _

/-! ### Sorting lemmas -/

theorem sortPairs_of_pairwise {l : List (String × String)}
    (h : List.Pairwise (fun a b => strLeB a.1 b.1 = true) l) : sortPairs l = l :=
  List.Sorted.insertionSort_eq h

theorem pairwise_key_of_names {l : List (String × String)}
    (h : List.Pairwise (fun a b : String => strLeB a b = true) (l.map Prod.fst)) :
    List.Pairwise (fun a b => strLeB a.1 b.1 = true) l :=
  List.pairwise_map.mp h

/-- C2: for a bucket config without a session token, at a fixed instant and
with valid expiry, the presigned URL is the canonical query string (whose
parameter names are exactly the five `X-Amz-*` names, key-sorted in byte
order) with `&X-Amz-Signature=<64 lowercase hex chars>` appended, and
`X-Amz-SignedHeaders` is `host`. -/
theorem presigned_url_query_shape (key : String) (bc : BucketConfig)
    (expires : Int) (now : Instant) (ep host : String)
    (htok : bc.session_token = none)
    (h1 : 1 ≤ expires) (h2 : expires ≤ 604800)
    (hnorm : _normalize_endpoint bc.endpoint = .ok (ep, host)) :
    generate_presigned_url key bc expires now =
      .ok (ep ++ "/" ++ bc.bucket_name ++ "/" ++ _aws_encode_uri (_normalize_key key) ++
        "?" ++ presign_canonical_query bc now expires ++ "&X-Amz-Signature=" ++
        presign_signature bc (_normalize_key key) now expires host) ∧
    (sortPairs (presign_params bc now expires)).map Prod.fst =
      ["X-Amz-Algorithm", "X-Amz-Credential", "X-Amz-Date", "X-Amz-Expires",
       "X-Amz-SignedHeaders"] ∧
    List.Pairwise (fun a b : String => strLtB a b = true)
      ["X-Amz-Algorithm", "X-Amz-Credential", "X-Amz-Date", "X-Amz-Expires",
       "X-Amz-SignedHeaders"] ∧
    (presign_signature bc (_normalize_key key) now expires host).length = 64 ∧
    (∀ c ∈ (presign_signature bc (_normalize_key key) now expires host).data,
      c ∈ hexChars) ∧
    (sortPairs (presign_params bc now expires)).lookup "X-Amz-SignedHeaders" =
      some "host" := by
  have hparams : presign_params bc now expires =
      [("X-Amz-Algorithm", "AWS4-HMAC-SHA256"),
       ("X-Amz-Credential", bc.access_key_id ++ "/" ++ credentialScope bc now),
       ("X-Amz-Date", now.amz_date),
       ("X-Amz-Expires", toString expires),
       ("X-Amz-SignedHeaders", "host")] := by
    simp [presign_params, htok]
  have hsorted : List.Pairwise (fun a b => strLeB a.1 b.1 = true)
      (presign_params bc now expires) := by
    rw [hparams]
    apply pairwise_key_of_names
    have hn : List.map Prod.fst
        [("X-Amz-Algorithm", "AWS4-HMAC-SHA256"),
         ("X-Amz-Credential", bc.access_key_id ++ "/" ++ credentialScope bc now),
         ("X-Amz-Date", now.amz_date),
         ("X-Amz-Expires", toString expires),
         ("X-Amz-SignedHeaders", "host")] =
        ["X-Amz-Algorithm", "X-Amz-Credential", "X-Amz-Date", "X-Amz-Expires",
         "X-Amz-SignedHeaders"] := rfl
    rw [hn]
    decide
  have hid := sortPairs_of_pairwise hsorted
  refine ⟨?_, ?_, by decide, ?_, ?_, ?_⟩
  · simp only [generate_presigned_url, validate_expires_ok h1 h2, hnorm]
  · rw [hid, hparams]
    rfl
  · show (hexDigest (hmacSha256 _ _)).length = 64
    rw [hexDigest_length, hmacSha256_length]
  · intro c hc
    exact hexDigest_chars _ c hc
  · rw [hid, hparams]
    rfl

/-- Witness for C2 at the spec's end-to-end scenario inputs. -/
theorem presigned_url_query_shape_witness :
    generate_presigned_url "2025/01/15/x.bin"
        ⟨"https://s3.example.com", "AKIDEXAMPLE", "secretXYZ", "assets", none,
          some "us-east-1", none⟩ 300 ⟨"20250115", "20250115T120000Z"⟩ =
      .ok ("https://s3.example.com" ++ "/" ++ "assets" ++ "/" ++
        _aws_encode_uri (_normalize_key "2025/01/15/x.bin") ++ "?" ++
        presign_canonical_query
          ⟨"https://s3.example.com", "AKIDEXAMPLE", "secretXYZ", "assets", none,
            some "us-east-1", none⟩ ⟨"20250115", "20250115T120000Z"⟩ 300 ++
        "&X-Amz-Signature=" ++
        presign_signature
          ⟨"https://s3.example.com", "AKIDEXAMPLE", "secretXYZ", "assets", none,
            some "us-east-1", none⟩ (_normalize_key "2025/01/15/x.bin")
          ⟨"20250115", "20250115T120000Z"⟩ 300 "s3.example.com") ∧
    (sortPairs (presign_params
        ⟨"https://s3.example.com", "AKIDEXAMPLE", "secretXYZ", "assets", none,
          some "us-east-1", none⟩ ⟨"20250115", "20250115T120000Z"⟩ 300)).map
      Prod.fst =
      ["X-Amz-Algorithm", "X-Amz-Credential", "X-Amz-Date", "X-Amz-Expires",
       "X-Amz-SignedHeaders"] ∧
    (presign_signature
      ⟨"https://s3.example.com", "AKIDEXAMPLE", "secretXYZ", "assets", none,
        some "us-east-1", none⟩ (_normalize_key "2025/01/15/x.bin")
      ⟨"20250115", "20250115T120000Z"⟩ 300 "s3.example.com").length = 64 := by
  have h := presigned_url_query_shape "2025/01/15/x.bin"
    ⟨"https://s3.example.com", "AKIDEXAMPLE", "secretXYZ", "assets", none,
      some "us-east-1", none⟩ 300 ⟨"20250115", "20250115T120000Z"⟩
    "https://s3.example.com" "s3.example.com" rfl (by decide) (by decide) (by rfl)
  exact ⟨h.1, h.2.1, h.2.2.2.1⟩

/-- The unreserved set named by the spec for `encodeUriPath`: ASCII letters,
digits, `- _ . ~`, and the path separator `/` (this definition follows the
spec's wording, for comparison with the source's `_aws_encode_uri`). -/
def specUriSafe (b : Nat) : Bool :=
  (65 ≤ b && b ≤ 90) || (97 ≤ b && b ≤ 122) || (48 ≤ b && b ≤ 57) ||
  b = 45 || b = 95 || b = 46 || b = 126 || b = 47

/-- The spec's `encodeUriPath`: percent-encode every UTF-8 byte outside
`specUriSafe`, passing the safe bytes through unchanged. -/
def spec_encode_uri_path (s : String) : String :=
  String.mk ((utf8 s).flatMap (fun b =>
    if specUriSafe b then [Char.ofNat b] else ['%', hexU (b / 16), hexU (b % 16)]))

theorem quote_uri_safe_eq (b : Nat) :
    (alwaysSafeByte b || List.contains ['/'.toNat, '~'.toNat] b) = specUriSafe b := by
  have hcont : List.contains ['/'.toNat, '~'.toNat] b = (b == 47 || b == 126) := by
    show List.elem b [47, 126] = _
    cases h47 : b == 47 <;> cases h126 : b == 126 <;> simp [List.elem, h47, h126]
  rw [hcont, Bool.eq_iff_iff]
  simp only [alwaysSafeByte, specUriSafe, Bool.or_eq_true, Bool.and_eq_true,
    decide_eq_true_eq, beq_iff_eq]
  omega

/-- C5: `_aws_encode_uri` percent-encodes exactly the bytes outside the
unreserved set plus `/` (passing those through unchanged), and the same
function produces both the key of the canonical URI and the key of the
literal request URL in `upload_bytes`, so the two always agree. -/
theorem aws_encode_uri_spec :
    (∀ s : String, _aws_encode_uri s = spec_encode_uri_path s) ∧
    (∀ (config : Config) (bucket : Option String) (bn : String) (bc : BucketConfig)
      (data : List Nat) (k genName : String) (ct cc cd : Option String)
      (now : Instant) (ep host : String),
      resolve_bucket_config config bucket = .ok (bn, bc) →
      _normalize_endpoint bc.endpoint = .ok (ep, host) →
      ∃ p, upload_bytes_prepare data (some k) bucket config genName ct cc cd now =
          .ok p ∧
        p.canonical_uri = "/" ++ bn ++ "/" ++ _aws_encode_uri (_normalize_key k) ∧
        p.url = ep ++ "/" ++ bn ++ "/" ++ _aws_encode_uri (_normalize_key k)) := by
  constructor
  · intro s
    unfold _aws_encode_uri pyQuote spec_encode_uri_path
    refine congrArg String.mk (congrArg (List.flatMap (utf8 s)) (funext fun b => ?_))
    unfold quoteByte
    rw [quote_uri_safe_eq]
  · intro config bucket bn bc data k genName ct cc cd now ep host hres hnorm
    obtain ⟨p, hp, _, huri, hurl⟩ :=
      upload_bytes_prepare_ok data k genName ct cc cd now hres hnorm
    exact ⟨p, hp, huri, hurl⟩

/-- Witness for C5: the byte-level property on a concrete string with a space
and a tilde, and URI/URL agreement on a concrete prepared upload. -/
theorem aws_encode_uri_spec_witness :
    _aws_encode_uri "a b/c~d.txt" = spec_encode_uri_path "a b/c~d.txt" ∧
    (∃ p, upload_bytes_prepare [] (some "x y.txt") none
        ⟨some "assets", [("assets", ⟨"https://h.example", "AKID", "sec", "assets",
          none, none, none⟩)]⟩ "gen" none none none
        ⟨"20250115", "20250115T000000Z"⟩ = .ok p ∧
      p.canonical_uri = "/" ++ "assets" ++ "/" ++
        _aws_encode_uri (_normalize_key "x y.txt") ∧
      p.url = "https://h.example" ++ "/" ++ "assets" ++ "/" ++
        _aws_encode_uri (_normalize_key "x y.txt")) :=
  ⟨aws_encode_uri_spec.1 "a b/c~d.txt",
   aws_encode_uri_spec.2
     ⟨some "assets", [("assets", ⟨"https://h.example", "AKID", "sec", "assets",
       none, none, none⟩)]⟩ none "assets"
     ⟨"https://h.example", "AKID", "sec", "assets", none, none, none⟩
     [] "x y.txt" "gen" none none none ⟨"20250115", "20250115T000000Z"⟩
     "https://h.example" "h.example" (by rfl) (by rfl)⟩

theorem string_data_inj {a b : String} (h : a.data = b.data) : a = b := by
  cases a
  cases b
  cases h
  rfl

theorem pairwiseAnd {α : Type} {R S : α → α → Prop} :
    ∀ {l : List α}, l.Pairwise R → l.Pairwise S →
      l.Pairwise (fun a b => R a b ∧ S a b) := by
  intro l h1 h2
  induction h1 with
  | nil => exact .nil
  | cons hr _ ih =>
    cases h2 with
    | cons hs ht => exact .cons (fun b hb => ⟨hr b hb, hs b hb⟩) (ih ht)

theorem sorted_strict_of_nodup_keys {l : List (String × String)}
    (hle : List.Sorted pairLeRel l) (hnd : (l.map Prod.fst).Nodup) :
    List.Sorted pairLtRel l := by
  have hne : List.Pairwise (fun a b : String × String => a.1 ≠ b.1) l :=
    List.pairwise_map.mp hnd
  exact (pairwiseAnd hle hne).imp
    (fun h => charListLt_of_le_of_ne h.1 (fun e => h.2 (string_data_inj e)))

theorem sortPairs_eq_of_perm {h1 h2 : List (String × String)}
    (hperm : h1.Perm h2) (hnd : (h1.map Prod.fst).Nodup) :
    sortPairs h1 = sortPairs h2 := by
  have hp : (sortPairs h1).Perm (sortPairs h2) :=
    (List.perm_insertionSort pairLeRel h1).trans
      (hperm.trans (List.perm_insertionSort pairLeRel h2).symm)
  have hnd1 : ((sortPairs h1).map Prod.fst).Nodup :=
    (((List.perm_insertionSort pairLeRel h1).map Prod.fst).nodup_iff).mpr hnd
  have hnd2 : ((sortPairs h2).map Prod.fst).Nodup :=
    (((List.perm_insertionSort pairLeRel h2).map Prod.fst).nodup_iff).mpr
      (((hperm.map Prod.fst).nodup_iff).mp hnd)
  exact List.eq_of_perm_of_sorted hp
    (sorted_strict_of_nodup_keys (List.sorted_insertionSort pairLeRel h1) hnd1)
    (sorted_strict_of_nodup_keys (List.sorted_insertionSort pairLeRel h2) hnd2)

theorem sortStrings_eq_of_perm {l1 l2 : List String}
    (hperm : l1.Perm l2) (hnd : l1.Nodup) :
    sortStrings l1 = sortStrings l2 := by
  have hp : (sortStrings l1).Perm (sortStrings l2) :=
    (List.perm_insertionSort strLeRel l1).trans
      (hperm.trans (List.perm_insertionSort strLeRel l2).symm)
  have hnd1 : (sortStrings l1).Nodup :=
    ((List.perm_insertionSort strLeRel l1).nodup_iff).mpr hnd
  have hnd2 : (sortStrings l2).Nodup :=
    ((List.perm_insertionSort strLeRel l2).nodup_iff).mpr (hperm.nodup_iff.mp hnd)
  have hstrict : ∀ {l : List String}, List.Sorted strLeRel l → l.Nodup →
      List.Sorted strLtRel l := fun hle hnd0 =>
    (pairwiseAnd hle hnd0).imp
      (fun h => charListLt_of_le_of_ne h.1 (fun e => h.2 (string_data_inj e)))
  exact List.eq_of_perm_of_sorted hp
    (hstrict (List.sorted_insertionSort strLeRel l1) hnd1)
    (hstrict (List.sorted_insertionSort strLeRel l2) hnd2)

/-- C7: the canonical header block and the signed-headers list are functions
of the header mapping only: for permuted header lists with unique names, the
concatenation of `name:normalized-value\n` lines is the identical string
(names appearing key-sorted byte-wise ascending), and the `;`-joined sorted
name list is the same. -/
theorem canonical_headers_order_independent (h1 h2 : List (String × String))
    (hperm : h1.Perm h2) (hnd : (h1.map Prod.fst).Nodup) :
    canonical_headers_str h1 = canonical_headers_str h2 ∧
    signed_headers_str h1 = signed_headers_str h2 ∧
    List.Pairwise strLeRel ((sortPairs h1).map Prod.fst) := by
  refine ⟨?_, ?_, ?_⟩
  · unfold canonical_headers_str
    rw [sortPairs_eq_of_perm hperm hnd]
  · unfold signed_headers_str
    rw [sortStrings_eq_of_perm (hperm.map Prod.fst) hnd]
  · exact List.pairwise_map.mpr (List.sorted_insertionSort pairLeRel h1)

/-- Witness for C7 on the spec's example header maps in both orders. -/
theorem canonical_headers_order_independent_witness :
    canonical_headers_str
        [("x-amz-date", "A"), ("host", "B"), ("content-type", "C")] =
      canonical_headers_str
        [("content-type", "C"), ("host", "B"), ("x-amz-date", "A")] ∧
    signed_headers_str
        [("x-amz-date", "A"), ("host", "B"), ("content-type", "C")] =
      signed_headers_str
        [("content-type", "C"), ("host", "B"), ("x-amz-date", "A")] :=
  ⟨(canonical_headers_order_independent
      [("x-amz-date", "A"), ("host", "B"), ("content-type", "C")]
      [("content-type", "C"), ("host", "B"), ("x-amz-date", "A")]
      (by decide) (by decide)).1,
   (canonical_headers_order_independent
      [("x-amz-date", "A"), ("host", "B"), ("content-type", "C")]
      [("content-type", "C"), ("host", "B"), ("x-amz-date", "A")]
      (by decide) (by decide)).2.1⟩

/-! ### Secret-key noninterference of error messages -/

/-- The error (if any) of an `Except` result. -/
def errOf {ε α : Type} : Except ε α → Option ε
  | .error e => some e
  | .ok _ => none

/-- The configuration with every bucket's secret key replaced by `s`. -/
def mapSecrets (c : Config) (s : String) : Config :=
  ⟨c.default_bucket, c.buckets.map (fun p => (p.1, { p.2 with secret_access_key := s }))⟩

theorem lookup_map_secret (s k : String) :
    ∀ l : List (String × BucketConfig),
      (l.map (fun p => (p.1, { p.2 with secret_access_key := s }))).lookup k =
        (l.lookup k).map (fun bc => { bc with secret_access_key := s }) := by
  intro l
  induction l with
  | nil => rfl
  | cons p t ih =>
    obtain ⟨a, b⟩ := p
    cases hk : k == a <;> simp [List.lookup, hk, ih]

theorem missing_indep (bc : BucketConfig) {s1 s2 : String}
    (hs1 : s1 ≠ "") (hs2 : s2 ≠ "") :
    REQUIRED_BUCKET_FIELDS.filter
      (fun f => bucketGet { bc with secret_access_key := s1 } f = "") =
    REQUIRED_BUCKET_FIELDS.filter
      (fun f => bucketGet { bc with secret_access_key := s2 } f = "") := by
  simp only [REQUIRED_BUCKET_FIELDS, List.filter_cons, List.filter_nil,
    show ∀ s, bucketGet { bc with secret_access_key := s } "endpoint" =
      bc.endpoint from fun _ => rfl,
    show ∀ s, bucketGet { bc with secret_access_key := s } "access_key_id" =
      bc.access_key_id from fun _ => rfl,
    show ∀ s, bucketGet { bc with secret_access_key := s } "secret_access_key" =
      s from fun _ => rfl,
    show ∀ s, bucketGet { bc with secret_access_key := s } "bucket_name" =
      bc.bucket_name from fun _ => rfl]
  simp [hs1, hs2]

theorem resolve_mapSecrets (c : Config) (bucket : Option String) {s1 s2 : String}
    (hs1 : s1 ≠ "") (hs2 : s2 ≠ "") :
    resolve_bucket_config (mapSecrets c s1) bucket =
      (resolve_bucket_config (mapSecrets c s2) bucket).map
        (fun p => (p.1, { p.2 with secret_access_key := s1 })) := by
  unfold resolve_bucket_config mapSecrets
  cases hbn : (match bucket with
      | some b => if b ≠ "" then some b else c.default_bucket
      | none => c.default_bucket) with
  | none => rfl
  | some bn =>
    by_cases he : bn = ""
    · simp [he, Except.map]
    · simp only [he, if_false, lookup_map_secret]
      cases hlk : c.buckets.lookup bn with
      | none =>
        simp [List.map_map, Except.map,
          show ∀ s : String, (Prod.fst ∘ fun p : String × BucketConfig =>
              (p.1, { p.2 with secret_access_key := s })) = Prod.fst from
            fun _ => funext fun _ => rfl]
      | some bc0 =>
        simp only [Option.map]
        rw [missing_indep bc0 hs1 hs2]
        by_cases hm : REQUIRED_BUCKET_FIELDS.filter
            (fun f => bucketGet { bc0 with secret_access_key := s2 } f = "") = []
        · simp [hm, Except.map]
        · simp [hm, Except.map]

/-- C8: replacing the secret access key by any other non-empty secret leaves
the error outcome (and in particular every error message) of both the
header-mode preparation path and the presigned-URL path unchanged: errors
never depend on, and hence never contain, the secret or the derived signing
key. -/
theorem error_messages_secret_independent
    (c : Config) (bucket : Option String) (key : Option String) (genName : String)
    (data : List Nat) (ct cc cd : Option String) (now : Instant)
    (k2 : String) (bc : BucketConfig) (e : Int) (s1 s2 : String)
    (hs1 : s1 ≠ "") (hs2 : s2 ≠ "") :
    errOf (upload_bytes_prepare data key bucket (mapSecrets c s1) genName ct cc cd now) =
      errOf (upload_bytes_prepare data key bucket (mapSecrets c s2) genName ct cc cd now) ∧
    errOf (generate_presigned_url k2 { bc with secret_access_key := s1 } e now) =
      errOf (generate_presigned_url k2 { bc with secret_access_key := s2 } e now) := by
  constructor
  · unfold upload_bytes_prepare
    rw [resolve_mapSecrets c bucket hs1 hs2]
    cases hres : resolve_bucket_config (mapSecrets c s2) bucket with
    | error err => simp [hres, Except.map, errOf]
    | ok p =>
      obtain ⟨bn, bc0⟩ := p
      simp only [hres, Except.map]
      cases hnorm : _normalize_endpoint bc0.endpoint with
      | error err2 => simp [hnorm, errOf]
      | ok pr =>
        obtain ⟨ep, host⟩ := pr
        simp [hnorm, errOf]
  · unfold generate_presigned_url
    cases hval : _validate_expires e with
    | error err => simp [hval, errOf]
    | ok e2 =>
      simp only [hval]
      cases hnorm : _normalize_endpoint bc.endpoint with
      | error err2 => simp [hnorm, errOf]
      | ok pr =>
        obtain ⟨ep, host⟩ := pr
        simp [hnorm, errOf]

/-- Witness for C8 with two concrete non-empty secrets. -/
theorem error_messages_secret_independent_witness :
    errOf (upload_bytes_prepare [] (some "k.txt") none
        (mapSecrets ⟨some "assets", [("assets", ⟨"https://h.example", "AKID",
          "ignored", "assets", none, none, none⟩)]⟩ "secretA") "gen" none none none
        ⟨"20250115", "20250115T000000Z"⟩) =
      errOf (upload_bytes_prepare [] (some "k.txt") none
        (mapSecrets ⟨some "assets", [("assets", ⟨"https://h.example", "AKID",
          "ignored", "assets", none, none, none⟩)]⟩ "secretB") "gen" none none none
        ⟨"20250115", "20250115T000000Z"⟩) ∧
    errOf (generate_presigned_url "k.txt"
        { (⟨"https://h.example", "AKID", "x", "assets", none, none, none⟩ :
          BucketConfig) with secret_access_key := "secretA" } 300
        ⟨"20250115", "20250115T000000Z"⟩) =
      errOf (generate_presigned_url "k.txt"
        { (⟨"https://h.example", "AKID", "x", "assets", none, none, none⟩ :
          BucketConfig) with secret_access_key := "secretB" } 300
        ⟨"20250115", "20250115T000000Z"⟩) :=
  error_messages_secret_independent
    ⟨some "assets", [("assets", ⟨"https://h.example", "AKID", "ignored", "assets",
      none, none, none⟩)]⟩ none (some "k.txt") "gen" [] none none none
    ⟨"20250115", "20250115T000000Z"⟩ "k.txt"
    ⟨"https://h.example", "AKID", "x", "assets", none, none, none⟩ 300
    "secretA" "secretB" (by decide) (by decide)

end R2Upload
